import Mathlib

/-!
Shallow embedding of the Todo-App Cloudflare worker (src/index.js, src/db.js).

The repository's `src/index.js` contains two versions of the route handlers:
an original "simple" set (the first half of the file) and a "hardened" set
(the second half, with the helper validators `isValidStatus`, `sanitizeTitle`,
`validateTodoId`, `isDescriptionTooLong`, `isValidDescription`).  Both are
embedded here; definitions for the simple handlers carry an `S` suffix and the
hardened ones an `H` suffix.  Strings are modelled as `List Char`.

The persistence collaborator (src/db.js, a D1/SQLite table) is modelled as an
explicit state: a list of rows plus the next auto-increment id.  Each handler
takes a `FailSpec` describing which of its awaited collaborator calls throws
(the collaborator is external and may fail at any call site); a handler
returns `Except JsErr (Response × DbState)`, where `.error` means the failure
escaped the handler uncaught.
-/

namespace TodoApp

abbrev Str := List Char

/-- JS whitespace as used by `String.prototype.trim` and the `\s` regex class
(ASCII part; the Unicode space characters play no role in this development). -/
def isWs (c : Char) : Bool :=
  c = ' ' || c = '\t' || c = '\n' || c = '\r' || c = '\x0b' || c = '\x0c'

/-- `String.prototype.trim`: drop leading and trailing whitespace. -/
def jsTrim (s : Str) : Str :=
  (s.dropWhile isWs).rdropWhile isWs

/-- Fuel-driven worker for `collapseWs` (the fuel, at least the length of
the list, makes the recursion structural so that the kernel can evaluate
it; the zero-fuel non-nil case is unreachable). -/
def collapseGo : Nat → Str → Str
  | _, [] => []
  | 0, _ :: _ => []
  | n + 1, c :: cs =>
    if isWs c then ' ' :: collapseGo n (cs.dropWhile isWs)
    else c :: collapseGo n cs

/-- `.replace(/\s+/g, " ")`: each maximal whitespace run becomes one space. -/
def collapseWs (s : Str) : Str :=
  collapseGo s.length s

/-- JS `parseInt` on a string with no radix argument, restricted to base-10
inputs (the hex autodetection of a `0x` prefix is irrelevant here): skip
leading whitespace, read an optional sign, then the longest run of decimal
digits; `none` models `NaN` (no digit consumed). -/
def parseIntJs (s : Str) : Option Int :=
  let t := s.dropWhile isWs
  let signRest : Int × Str :=
    match t with
    | '-' :: r => (-1, r)
    | '+' :: r => (1, r)
    | _ => (1, t)
  let ds := signRest.2.takeWhile (fun c => '0' ≤ c && c ≤ '9')
  if ds = [] then none
  else some (signRest.1 * (ds.foldl (fun a c => a * 10 + (c.toNat - '0'.toNat)) 0 : Nat))

/-- src/index.js `sanitizeTitle` (hardened half): empty for a missing/empty
title, otherwise trim and collapse interior whitespace runs.  `none` models a
missing (or non-string, which the source also maps to `""`) title. -/
def sanitizeTitle (t : Option Str) : Str :=
  match t with
  | none => []
  | some s =>
    if s = [] then []
    else
      let trimmed := jsTrim s
      if trimmed = [] then []
      else collapseWs trimmed

/-- The fixed status enumeration of src/index.js `isValidStatus`. -/
def validStatuses : List Str :=
  ["incomplete".data, "in-progress".data, "complete".data, "archived".data]

/-- src/index.js `isValidStatus`: true iff the (present) status is exactly one
of the four enumerated values; a missing status (`undefined`) is not. -/
def isValidStatus (status : Option Str) : Bool :=
  match status with
  | none => false
  | some v => validStatuses.contains v

/-- src/index.js `DEFAULT_STATUS`. -/
def defaultStatus : Str := "incomplete".data

/-- src/index.js `validateTodoId` result object. -/
structure IdValidation where
  isValid : Bool
  parsedId : Option Int
  error : Option Str
deriving DecidableEq

/-- src/index.js `validateTodoId`: `parseInt` the raw id; invalid when the
parse yields `NaN` or a value `≤ 0`. -/
def validateTodoId (id : Str) : IdValidation :=
  match parseIntJs id with
  | none => ⟨false, none, some "Invalid ID".data⟩
  | some n =>
    if n ≤ 0 then ⟨false, none, some "Invalid ID".data⟩
    else ⟨true, some n, none⟩

/-- src/index.js `isDescriptionTooLong`: a missing (or empty, falsy)
description is never too long; otherwise compare length to `maxLength`. -/
def isDescriptionTooLong (description : Option Str) (maxLength : Nat) : Bool :=
  match description with
  | none => false
  | some s => if s = [] then false else s.length > maxLength

/-- Does `hay` start with `needle`? (helper for `includesSub`). -/
def startsWithSub : Str → Str → Bool
  | _, [] => true
  | [], _ :: _ => false
  | a :: as, b :: bs => a = b && startsWithSub as bs

/-- Contiguous-substring test, modelling JS `String.prototype.includes`. -/
def includesSub (hay needle : Str) : Bool :=
  startsWithSub hay needle ||
  match hay with
  | [] => false
  | _ :: t => includesSub t needle

/-- src/index.js `isValidDescription` (hardened half): a missing or empty
(falsy) description is valid; otherwise reject the injection blocklist
substrings and extreme length (> 5000). -/
def isValidDescription (description : Option Str) : Bool :=
  match description with
  | none => true
  | some s =>
    if s = [] then true
    else if includesSub s "<script>".data then false
    else if includesSub s "javascript:".data then false
    else if includesSub s "onerror=".data then false
    else if includesSub s "onload=".data then false
    else if s.length > 5000 then false
    else true

/-! ## Persistence collaborator (src/db.js over a D1/SQLite `todos` table) -/

/-- One row of the `todos` table. -/
structure Todo where
  id : Int
  title : Str
  description : Option Str
  status : Str
deriving DecidableEq

/-- The table plus the auto-increment counter (ids are assigned by the
persistence collaborator, strictly increasing, never reused). -/
structure DbState where
  rows : List Todo
  nextId : Int
deriving DecidableEq

/-- db.js `getAllTodos`: `SELECT * FROM todos`. -/
def getAllTodos (st : DbState) : List Todo :=
  st.rows

/-- db.js `getTodoById`: `SELECT * FROM todos WHERE id = ?`. -/
def getTodoById (st : DbState) (id : Int) : List Todo :=
  st.rows.filter (fun t => t.id == id)

/-- db.js `insertTodo`: `INSERT INTO todos (title, description, status)
VALUES (?, ?, ?)`; the id is assigned from the auto-increment counter. -/
def insertTodo (st : DbState) (title : Str) (description : Option Str)
    (status : Str) : DbState :=
  ⟨st.rows ++ [⟨st.nextId, title, description, status⟩], st.nextId + 1⟩

/-- Fold picking the row of maximal id (SQL `ORDER BY id DESC LIMIT 1`). -/
def latestAux (acc : Option Todo) (l : List Todo) : Option Todo :=
  l.foldl (fun a t =>
    match a with
    | none => some t
    | some b => if b.id < t.id then some t else some b) acc

/-- db.js `getLatestTodo`: `SELECT * FROM todos ORDER BY id DESC LIMIT 1`. -/
def getLatestTodo (st : DbState) : List Todo :=
  match latestAux none st.rows with
  | none => []
  | some t => [t]

/-- db.js `todoExists`: `SELECT 1 FROM todos WHERE id = ?` (one unit row per
match). -/
def todoExists (st : DbState) (id : Int) : List Unit :=
  (st.rows.filter (fun t => t.id == id)).map (fun _ => ())

/-- db.js `updateTodo`: `UPDATE todos SET title = ?, description = ?,
status = ? WHERE id = ?`; second component is the affected-row count. -/
def updateTodo (st : DbState) (id : Int) (title : Str)
    (description : Option Str) (status : Str) : DbState × Nat :=
  (⟨st.rows.map (fun t =>
      if t.id == id then ⟨t.id, title, description, status⟩ else t),
    st.nextId⟩,
   (st.rows.filter (fun t => t.id == id)).length)

/-- db.js `deleteTodo`: `DELETE FROM todos WHERE id = ?`; second component
is the affected-row count (`meta.changes`). -/
def deleteTodo (st : DbState) (id : Int) : DbState × Nat :=
  (⟨st.rows.filter (fun t => !(t.id == id)), st.nextId⟩,
   (st.rows.filter (fun t => t.id == id)).length)

/-! ## Requests, responses, and collaborator failure behaviour -/

/-- A parsed JSON request body: each field present or absent (`?? null`). -/
structure ReqBody where
  title : Option Str
  description : Option Str
  status : Option Str
deriving DecidableEq

/-- JS `!body.title`: absent, `null`, or the empty string is falsy. -/
def titleFalsy (t : Option Str) : Bool :=
  t = none || t = some []

/-- A thrown/rejected collaborator failure (`err`); `message` is `none` when
the failure carries no message. -/
structure JsErr where
  message : Option Str
deriving DecidableEq

/-- `err.message || "DB failure"`: the message when present and non-empty
(truthy), else the generic fallback string. -/
def errMsg (e : JsErr) : Str :=
  match e.message with
  | none => "DB failure".data
  | some m => if m = [] then "DB failure".data else m

/-- A JSON response body. -/
inductive Body where
  | errB (msg : Str)
  | todoB (t : Todo)
  | todosB (ts : List Todo)
  | successB
  | okB
  | undefB
deriving DecidableEq

/-- An HTTP response: status code and JSON body. -/
structure Response where
  status : Nat
  body : Body
deriving DecidableEq

/-- Which awaited collaborator calls throw during one request, and whether
the delete result arrives without `meta` (the handler checks `!result.meta`
defensively).  This is the behaviour of the external collaborator, an input
to the handler. -/
structure FailSpec where
  getAllFail : Option JsErr
  getByIdFail : Option JsErr
  insertFail : Option JsErr
  latestFail : Option JsErr
  existsFail : Option JsErr
  updateFail : Option JsErr
  deleteFail : Option JsErr
  dropDeleteMeta : Bool
deriving DecidableEq

/-- The all-succeeding collaborator. -/
def noFails : FailSpec :=
  ⟨none, none, none, none, none, none, none, false⟩

/-! ## Route handlers

Each handler returns `Except JsErr (Response × DbState)`: `.ok` is a response
actually sent (with the table state after the request), `.error` a collaborator
failure that escaped the handler uncaught (no `try/catch` around the call in
the source).  A `body?` of `none` models a request body that fails to parse
as JSON. -/

/-- Hardened `GET /todos` (second half of src/index.js): list all, with
try/catch around the collaborator call. -/
def getAllTodosH (st : DbState) (fs : FailSpec) :
    Except JsErr (Response × DbState) :=
  match fs.getAllFail with
  | some e => .ok (⟨500, .errB (errMsg e)⟩, st)
  | none => .ok (⟨200, .todosB (getAllTodos st)⟩, st)

/-- Hardened `GET /todos/:id`: `validateTodoId`, then fetch inside
try/catch; empty result set is 404. -/
def getTodoByIdH (st : DbState) (fs : FailSpec) (idStr : Str) :
    Except JsErr (Response × DbState) :=
  let v := validateTodoId idStr
  if v.isValid then
    let id := v.parsedId.getD 0
    match fs.getByIdFail with
    | some e => .ok (⟨500, .errB (errMsg e)⟩, st)
    | none =>
      match getTodoById st id with
      | [] => .ok (⟨404, .errB "Not found".data⟩, st)
      | t :: _ => .ok (⟨200, .todoB t⟩, st)
  else
    .ok (⟨400, .errB (v.error.getD [])⟩, st)

/-- The status actually stored by the hardened create/update:
`isValidStatus(body.status) ? body.status : DEFAULT_STATUS`. -/
def storedStatus (s : Option Str) : Str :=
  if isValidStatus s then s.getD defaultStatus else defaultStatus

/-- Hardened `POST /todos`: JSON parse, title present, sanitize to non-empty,
description length then blocklist, status defaulted; insert and re-fetch the
latest row inside try/catch. -/
def createTodoH (st : DbState) (fs : FailSpec) (body? : Option ReqBody) :
    Except JsErr (Response × DbState) :=
  match body? with
  | none => .ok (⟨400, .errB "Invalid JSON".data⟩, st)
  | some body =>
    if titleFalsy body.title then
      .ok (⟨400, .errB "Title required".data⟩, st)
    else
      let sanitizedTitle := sanitizeTitle body.title
      if sanitizedTitle = [] then
        .ok (⟨400, .errB "Title cannot be empty".data⟩, st)
      else
        let description := body.description
        if isDescriptionTooLong description 1000 then
          .ok (⟨400, .errB "Description is too long (max 1000 characters)".data⟩, st)
        else if !(isValidDescription description) then
          .ok (⟨400, .errB "Description contains invalid content".data⟩, st)
        else
          let status := storedStatus body.status
          match fs.insertFail with
          | some e => .ok (⟨500, .errB (errMsg e)⟩, st)
          | none =>
            let st1 := insertTodo st sanitizedTitle description status
            match fs.latestFail with
            | some e => .ok (⟨500, .errB (errMsg e)⟩, st1)
            | none =>
              match getLatestTodo st1 with
              | t :: _ => .ok (⟨201, .todoB t⟩, st1)
              | [] => .ok (⟨201, .undefB⟩, st1)

/-- Hardened `PUT /todos/:id`: `validateTodoId`, JSON parse, title checks,
then (inside try/catch) existence check, description length check, status
default, update, re-fetch. -/
def updateTodoH (st : DbState) (fs : FailSpec) (idStr : Str)
    (body? : Option ReqBody) : Except JsErr (Response × DbState) :=
  let v := validateTodoId idStr
  if v.isValid then
    let id := v.parsedId.getD 0
    match body? with
    | none => .ok (⟨400, .errB "Invalid JSON".data⟩, st)
    | some body =>
      if titleFalsy body.title then
        .ok (⟨400, .errB "Title required for PUT".data⟩, st)
      else
        let sanitizedTitle := sanitizeTitle body.title
        if sanitizedTitle = [] then
          .ok (⟨400, .errB "Title cannot be empty".data⟩, st)
        else
          match fs.existsFail with
          | some e => .ok (⟨500, .errB (errMsg e)⟩, st)
          | none =>
            if todoExists st id = [] then
              .ok (⟨404, .errB "Not found".data⟩, st)
            else
              let description := body.description
              if isDescriptionTooLong description 1000 then
                .ok (⟨400, .errB "Description is too long (max 1000 characters)".data⟩, st)
              else
                let status := storedStatus body.status
                match fs.updateFail with
                | some e => .ok (⟨500, .errB (errMsg e)⟩, st)
                | none =>
                  let st1 := (updateTodo st id sanitizedTitle description status).1
                  match fs.getByIdFail with
                  | some e => .ok (⟨500, .errB (errMsg e)⟩, st1)
                  | none =>
                    match getTodoById st1 id with
                    | u :: _ => .ok (⟨200, .todoB u⟩, st1)
                    | [] => .ok (⟨200, .undefB⟩, st1)
  else
    .ok (⟨400, .errB (v.error.getD [])⟩, st)

/-- Hardened `DELETE /todos/:id`: `validateTodoId`, then delete inside
try/catch; 404 when the result has no `meta` or zero `changes`. -/
def deleteTodoH (st : DbState) (fs : FailSpec) (idStr : Str) :
    Except JsErr (Response × DbState) :=
  let v := validateTodoId idStr
  if v.isValid then
    let id := v.parsedId.getD 0
    match fs.deleteFail with
    | some e => .ok (⟨500, .errB (errMsg e)⟩, st)
    | none =>
      let r := deleteTodo st id
      let meta : Option Nat := if fs.dropDeleteMeta then none else some r.2
      match meta with
      | none => .ok (⟨404, .errB "Not found".data⟩, r.1)
      | some changes =>
        if changes = 0 then .ok (⟨404, .errB "Not found".data⟩, r.1)
        else .ok (⟨200, .successB⟩, r.1)
  else
    .ok (⟨400, .errB (v.error.getD [])⟩, st)

/-- Simple `GET /todos/:id` (first half of src/index.js): only `isNaN` guards
the id (zero and negative pass), and the collaborator call is NOT wrapped in
try/catch — a failure escapes the handler. -/
def getTodoByIdS (st : DbState) (fs : FailSpec) (idStr : Str) :
    Except JsErr (Response × DbState) :=
  match parseIntJs idStr with
  | none => .ok (⟨400, .errB "Invalid ID".data⟩, st)
  | some id =>
    match fs.getByIdFail with
    | some e => .error e
    | none =>
      match getTodoById st id with
      | [] => .ok (⟨404, .errB "Not found".data⟩, st)
      | t :: _ => .ok (⟨200, .todoB t⟩, st)

/-- Simple `POST /todos`: raw title stored after a truthiness check only,
`status = body.status ?? "incomplete"` stored verbatim, no description
validation, no try/catch around the collaborator calls. -/
def createTodoS (st : DbState) (fs : FailSpec) (body? : Option ReqBody) :
    Except JsErr (Response × DbState) :=
  match body? with
  | none => .ok (⟨400, .errB "Invalid JSON".data⟩, st)
  | some body =>
    if titleFalsy body.title then
      .ok (⟨400, .errB "Title required".data⟩, st)
    else
      let description := body.description
      let status := body.status.getD defaultStatus
      match fs.insertFail with
      | some e => .error e
      | none =>
        let st1 := insertTodo st (body.title.getD []) description status
        match fs.latestFail with
        | some e => .error e
        | none =>
          match getLatestTodo st1 with
          | t :: _ => .ok (⟨201, .todoB t⟩, st1)
          | [] => .ok (⟨201, .undefB⟩, st1)

/-- Repeated delete of the same id, threading the table state. -/
def deleteIter (fs : FailSpec) (idStr : Str) : Nat → DbState →
    Except JsErr (Response × DbState)
  | 0, st => deleteTodoH st fs idStr
  | k + 1, st =>
    match deleteTodoH st fs idStr with
    | .ok (_, st') => deleteIter fs idStr k st'
    | .error e => .error e

/-! ## Invariants -/

/-- `id` assignment policy of the collaborator: every stored id is below the
auto-increment counter (so new ids are fresh and maximal). -/
def IdsBelowNext (st : DbState) : Prop :=
  ∀ t ∈ st.rows, t.id < st.nextId

/-- A well-formed row: non-empty title that is a fixpoint of sanitization
(trimmed, interior whitespace collapsed) and a status from the enumeration. -/
def TodoWF (t : Todo) : Prop :=
  t.title ≠ [] ∧ sanitizeTitle (some t.title) = t.title ∧
    isValidStatus (some t.status) = true

/-- All rows of the table are well-formed. -/
def DbWF (st : DbState) : Prop :=
  ∀ t ∈ st.rows, TodoWF t

instance decTodoWF : DecidablePred TodoWF := fun t =>
  decidable_of_iff (t.title ≠ [] ∧ sanitizeTitle (some t.title) = t.title ∧
    isValidStatus (some t.status) = true) Iff.rfl

instance decDbWF : DecidablePred DbWF := fun st =>
  decidable_of_iff (∀ t ∈ st.rows, TodoWF t) Iff.rfl

instance decIdsBelowNext : DecidablePred IdsBelowNext := fun st =>
  decidable_of_iff (∀ t ∈ st.rows, t.id < st.nextId) Iff.rfl

/-! ## Lemmas about whitespace normalization -/

lemma head_dropWhile_ws : ∀ (l : Str) {x : Char} {xs : Str},
    l.dropWhile isWs = x :: xs → isWs x = false := by
  intro l
  induction l with
  | nil => intro x xs h; simp at h
  | cons a as ih =>
    intro x xs h
    rw [List.dropWhile_cons] at h
    by_cases ha : isWs a
    · simp only [ha, if_true] at h
      exact ih h
    · simp only [ha, if_false] at h
      cases h
      simpa using ha

lemma dropWhile_ws_cons_self {x : Char} {xs : Str} (hx : isWs x = false) :
    (x :: xs).dropWhile isWs = x :: xs := by
  rw [List.dropWhile_cons, hx]
  simp

lemma collapseGo_eq : ∀ (n m : Nat) (l : Str), l.length ≤ n → l.length ≤ m →
    collapseGo n l = collapseGo m l := by
  intro n
  induction n with
  | zero =>
    intro m l hn _
    rw [List.length_eq_zero.mp (Nat.le_zero.mp hn)]
    cases m <;> rfl
  | succ n ih =>
    intro m l hn hm
    cases l with
    | nil => cases m <;> rfl
    | cons c cs =>
      cases m with
      | zero => simp at hm
      | succ m' =>
        simp only [List.length_cons, Nat.succ_le_succ_iff] at hn hm
        unfold collapseGo
        by_cases hc : isWs c
        · rw [if_pos hc, if_pos hc,
            ih m' (cs.dropWhile isWs)
              (le_trans (List.dropWhile_sublist isWs).length_le hn)
              (le_trans (List.dropWhile_sublist isWs).length_le hm)]
        · rw [if_neg hc, if_neg hc, ih m' cs hn hm]

lemma collapseWs_nil : collapseWs [] = [] :=
  rfl

lemma collapseWs_cons_ws {c : Char} {cs : Str} (h : isWs c = true) :
    collapseWs (c :: cs) = ' ' :: collapseWs (cs.dropWhile isWs) := by
  have step : collapseGo (cs.length + 1) (c :: cs) =
      if isWs c then ' ' :: collapseGo cs.length (cs.dropWhile isWs)
      else c :: collapseGo cs.length cs := rfl
  show collapseGo (cs.length + 1) (c :: cs) = _
  rw [step, if_pos h,
    collapseGo_eq cs.length (cs.dropWhile isWs).length (cs.dropWhile isWs)
      (List.dropWhile_sublist isWs).length_le le_rfl]
  rfl

lemma collapseWs_cons_not {c : Char} {cs : Str} (h : isWs c = false) :
    collapseWs (c :: cs) = c :: collapseWs cs := by
  have step : collapseGo (cs.length + 1) (c :: cs) =
      if isWs c then ' ' :: collapseGo cs.length (cs.dropWhile isWs)
      else c :: collapseGo cs.length cs := rfl
  show collapseGo (cs.length + 1) (c :: cs) = _
  rw [step, if_neg (by simp [h])]
  rfl

lemma collapseWs_rec (motive : Str → Prop) (h1 : motive [])
    (h2 : ∀ c cs, isWs c = true → motive (cs.dropWhile isWs) →
      motive (c :: cs))
    (h3 : ∀ c cs, isWs c = false → motive cs → motive (c :: cs)) :
    ∀ l, motive l := by
  have key : ∀ (n : Nat) (l : Str), l.length ≤ n → motive l := by
    intro n
    induction n with
    | zero =>
      intro l hl
      rw [List.length_eq_zero.mp (Nat.le_zero.mp hl)]
      exact h1
    | succ n ih =>
      intro l hl
      cases l with
      | nil => exact h1
      | cons c cs =>
        simp only [List.length_cons, Nat.succ_le_succ_iff] at hl
        by_cases hc : isWs c = true
        · exact h2 c cs hc
            (ih _ (le_trans (List.dropWhile_sublist isWs).length_le hl))
        · exact h3 c cs (by simpa using hc) (ih cs hl)
  exact fun l => key l.length l le_rfl

lemma collapseWs_ne_nil {l : Str} (h : l ≠ []) : collapseWs l ≠ [] := by
  cases l with
  | nil => exact absurd rfl h
  | cons c cs =>
    by_cases hc : isWs c
    · rw [collapseWs_cons_ws hc]; simp
    · rw [collapseWs_cons_not (by simpa using hc)]; simp

lemma getLast?_cons_of_ne_nil {a : Char} {l : Str} (h : l ≠ []) :
    (a :: l).getLast? = l.getLast? := by
  cases l with
  | nil => exact absurd rfl h
  | cons b bs => exact List.getLast?_cons_cons

lemma getLast?_collapseWs : ∀ (l : Str) (c : Char),
    l.getLast? = some c → isWs c = false → (collapseWs l).getLast? = some c := by
  intro l
  induction l using collapseWs_rec with
  | h1 => intro c h _; simp at h
  | h2 c0 cs h1 ih =>
    intro c hlast hws
    cases cs with
    | nil =>
      simp only [List.getLast?_singleton, Option.some.injEq] at hlast
      rw [← hlast] at hws
      rw [h1] at hws
      cases hws
    | cons b bs =>
      rw [List.getLast?_cons_cons] at hlast
      rw [collapseWs_cons_ws h1]
      have hXsuff : (b :: bs).dropWhile isWs <:+ b :: bs :=
        List.dropWhile_suffix isWs
      have hXne : (b :: bs).dropWhile isWs ≠ [] := by
        intro hnil
        have hall := List.dropWhile_eq_nil_iff.mp hnil
        have hc : c ∈ b :: bs := List.mem_of_getLast?_eq_some hlast
        rw [hall c hc] at hws
        cases hws
      obtain ⟨pre, hpre⟩ := hXsuff
      have hXlast : ((b :: bs).dropWhile isWs).getLast? = some c := by
        rw [← hpre, List.getLast?_append] at hlast
        rw [List.getLast?_eq_getLast _ hXne] at hlast ⊢
        simpa using hlast
      have := ih c hXlast hws
      rw [getLast?_cons_of_ne_nil (collapseWs_ne_nil hXne)]
      exact this
  | h3 c0 cs h1 ih =>
    intro c hlast hws
    rw [collapseWs_cons_not h1]
    cases cs with
    | nil =>
      simp only [List.getLast?_singleton, Option.some.injEq] at hlast
      rw [collapseWs_nil, ← hlast]
      simp
    | cons b bs =>
      rw [List.getLast?_cons_cons] at hlast
      have := ih c hlast hws
      rw [getLast?_cons_of_ne_nil (collapseWs_ne_nil (by simp))]
      exact this

lemma collapseWs_idem : ∀ l : Str, collapseWs (collapseWs l) = collapseWs l := by
  intro l
  induction l using collapseWs_rec with
  | h1 => simp [collapseWs_nil]
  | h2 c0 cs h1 ih =>
    rw [collapseWs_cons_ws h1, collapseWs_cons_ws (show isWs ' ' = true by decide)]
    rcases hX : cs.dropWhile isWs with _ | ⟨x, xs⟩
    · simp [collapseWs_nil]
    · have hx : isWs x = false := head_dropWhile_ws cs hX
      rw [hX] at ih
      rw [collapseWs_cons_not hx, dropWhile_ws_cons_self hx,
        ← collapseWs_cons_not hx, ih]
  | h3 c0 cs h1 ih =>
    rw [collapseWs_cons_not h1, collapseWs_cons_not h1, ih]

lemma jsTrim_head_ws {s : Str} {x : Char} {xs : Str} (h : jsTrim s = x :: xs) :
    isWs x = false := by
  have hpre := List.rdropWhile_prefix isWs (s.dropWhile isWs)
  rw [show (s.dropWhile isWs).rdropWhile isWs = jsTrim s from rfl, h] at hpre
  obtain ⟨u, hu⟩ := hpre
  exact head_dropWhile_ws s (by rw [hu.symm]; rfl)

lemma jsTrim_last_ws {s : Str} (h : jsTrim s ≠ []) :
    ∃ c, (jsTrim s).getLast? = some c ∧ isWs c = false := by
  have h' : (s.dropWhile isWs).rdropWhile isWs ≠ [] := h
  have hlast := List.rdropWhile_last_not isWs (s.dropWhile isWs) h'
  refine ⟨((s.dropWhile isWs).rdropWhile isWs).getLast h', ?_, by simpa using hlast⟩
  exact List.getLast?_eq_getLast _ h'

lemma jsTrim_of_norm {l : Str}
    (hhead : ∀ x xs, l = x :: xs → isWs x = false)
    (hlast : ∀ c, l.getLast? = some c → isWs c = false) : jsTrim l = l := by
  cases l with
  | nil => rfl
  | cons x xs =>
    unfold jsTrim
    rw [dropWhile_ws_cons_self (hhead x xs rfl)]
    rw [List.rdropWhile_eq_self_iff]
    intro hl
    have := hlast _ (List.getLast?_eq_getLast _ hl)
    simp [this]

lemma sanitizeTitle_eq_collapse {s : Str} (h : sanitizeTitle (some s) ≠ []) :
    sanitizeTitle (some s) = collapseWs (jsTrim s) ∧ jsTrim s ≠ [] := by
  unfold sanitizeTitle at h ⊢
  by_cases hs : s = []
  · simp [hs] at h
  · simp only [hs, if_false] at h ⊢
    by_cases ht : jsTrim s = []
    · simp [ht] at h
    · simp [ht, h]

lemma sanitizeTitle_idem (t : Option Str) :
    sanitizeTitle (some (sanitizeTitle t)) = sanitizeTitle t := by
  by_cases h : sanitizeTitle t = []
  · rw [h]; rfl
  · cases t with
    | none => simp [sanitizeTitle] at h
    | some s =>
      obtain ⟨heq, htrim⟩ := sanitizeTitle_eq_collapse h
      set r := sanitizeTitle (some s) with hr
      have hrne : r ≠ [] := h
      have hrhead : ∀ x xs, r = x :: xs → isWs x = false := by
        intro x xs hcons
        rcases hT : jsTrim s with _ | ⟨y, ys⟩
        · exact absurd hT htrim
        · have hy : isWs y = false := jsTrim_head_ws hT
          rw [heq, hT, collapseWs_cons_not hy] at hcons
          cases hcons
          exact hy
      have hrlast : ∀ c, r.getLast? = some c → isWs c = false := by
        intro c hc
        obtain ⟨c', hc', hc'ws⟩ := jsTrim_last_ws htrim
        have := getLast?_collapseWs (jsTrim s) c' hc' hc'ws
        rw [← heq] at this
        rw [this] at hc
        cases hc
        exact hc'ws
      show sanitizeTitle (some r) = r
      show (if r = [] then []
        else if jsTrim r = [] then [] else collapseWs (jsTrim r)) = r
      rw [if_neg hrne, jsTrim_of_norm hrhead hrlast, if_neg hrne, heq,
        collapseWs_idem]

lemma sanitizeTitle_allWs {s : Str} (h : ∀ c ∈ s, isWs c = true) :
    sanitizeTitle (some s) = [] := by
  unfold sanitizeTitle
  by_cases hs : s = []
  · simp [hs]
  · have hdrop : s.dropWhile isWs = [] := List.dropWhile_eq_nil_iff.mpr h
    have htrim : jsTrim s = [] := by
      unfold jsTrim
      rw [hdrop]
      rfl
    simp [hs, htrim]

/-! ## Lemmas about the persistence model -/

lemma latestAux_append_max (l : List Todo) (x : Todo) :
    ∀ acc : Option Todo,
      (∀ t ∈ l, t.id < x.id) → (∀ b, acc = some b → b.id < x.id) →
      latestAux acc (l ++ [x]) = some x := by
  induction l with
  | nil =>
    intro acc h1 h2
    unfold latestAux
    simp only [List.nil_append, List.foldl_cons, List.foldl_nil]
    cases acc with
    | none => rfl
    | some b => simp [h2 b rfl]
  | cons a as ih =>
    intro acc h1 h2
    simp only [List.cons_append]
    show latestAux _ (as ++ [x]) = some x
    apply ih
    · intro t ht
      exact h1 t (List.mem_cons_of_mem _ ht)
    · intro b hb
      cases acc with
      | none =>
        simp only at hb
        rw [show b = a by exact Option.some.inj hb.symm]
        exact h1 a (List.mem_cons_self a as)
      | some b0 =>
        simp only at hb
        by_cases hlt : b0.id < a.id
        · rw [if_pos hlt] at hb
          rw [show b = a from Option.some.inj hb.symm]
          exact h1 a (List.mem_cons_self a as)
        · rw [if_neg hlt] at hb
          rw [show b = b0 from Option.some.inj hb.symm]
          exact h2 b0 rfl

lemma getLatestTodo_insert {st : DbState} (hwf : IdsBelowNext st)
    (T : Str) (D : Option Str) (S : Str) :
    getLatestTodo (insertTodo st T D S) = [⟨st.nextId, T, D, S⟩] := by
  unfold getLatestTodo insertTodo
  rw [latestAux_append_max st.rows ⟨st.nextId, T, D, S⟩ none
    (fun t ht => hwf t ht) (by simp)]

lemma filter_id_eq_nil {st : DbState} (hwf : IdsBelowNext st) :
    st.rows.filter (fun t => t.id == st.nextId) = [] := by
  rw [List.filter_eq_nil_iff]
  intro t ht
  have := hwf t ht
  simp only [beq_iff_eq]
  omega

lemma getTodoById_insert {st : DbState} (hwf : IdsBelowNext st)
    (T : Str) (D : Option Str) (S : Str) :
    getTodoById (insertTodo st T D S) st.nextId = [⟨st.nextId, T, D, S⟩] := by
  unfold getTodoById insertTodo
  simp only [List.filter_append, filter_id_eq_nil hwf]
  simp

lemma isValidStatus_storedStatus (s : Option Str) :
    isValidStatus (some (storedStatus s)) = true := by
  unfold storedStatus
  by_cases h : isValidStatus s = true
  · rw [if_pos h]
    cases s with
    | none => simp [isValidStatus] at h
    | some v => simpa using h
  · rw [if_neg h]
    rfl

lemma DbWF_insert {st : DbState} {T : Str} {D : Option Str} {S : Str}
    (h : DbWF st) (hT : T ≠ []) (hfix : sanitizeTitle (some T) = T)
    (hS : isValidStatus (some S) = true) : DbWF (insertTodo st T D S) := by
  intro t ht
  unfold insertTodo at ht
  simp only [List.mem_append, List.mem_singleton] at ht
  rcases ht with ht | rfl
  · exact h t ht
  · exact ⟨hT, hfix, hS⟩

lemma DbWF_update {st : DbState} {id : Int} {T : Str} {D : Option Str}
    {S : Str} (h : DbWF st) (hT : T ≠ [])
    (hfix : sanitizeTitle (some T) = T) (hS : isValidStatus (some S) = true) :
    DbWF (updateTodo st id T D S).1 := by
  intro t ht
  unfold updateTodo at ht
  simp only [List.mem_map] at ht
  obtain ⟨u, hu, ht⟩ := ht
  by_cases hid : u.id == id
  · rw [if_pos hid] at ht
    rw [← ht]
    exact ⟨hT, hfix, hS⟩
  · rw [if_neg hid] at ht
    rw [← ht]
    exact h u hu

lemma DbWF_delete {st : DbState} {id : Int} (h : DbWF st) :
    DbWF (deleteTodo st id).1 := by
  intro t ht
  unfold deleteTodo at ht
  exact h t (List.mem_of_mem_filter ht)

/-! ## Handler characterization lemmas -/

lemma createTodoH_state {st : DbState} {fs : FailSpec} {body? : Option ReqBody}
    {r : Response} {st' : DbState}
    (h : createTodoH st fs body? = .ok (r, st')) :
    st' = st ∨ ∃ body, body? = some body ∧ sanitizeTitle body.title ≠ [] ∧
      st' = insertTodo st (sanitizeTitle body.title) body.description
        (storedStatus body.status) := by
  unfold createTodoH at h
  rcases body? with _ | body
  · simp only [Except.ok.injEq, Prod.mk.injEq] at h
    exact Or.inl h.2.symm
  · simp only at h
    repeat' split at h
    all_goals simp only [Except.ok.injEq, Prod.mk.injEq] at h
    all_goals first
      | exact Or.inl h.2.symm
      | exact Or.inr ⟨body, rfl, by assumption, h.2.symm⟩

lemma updateTodoH_state {st : DbState} {fs : FailSpec} {idStr : Str}
    {body? : Option ReqBody} {r : Response} {st' : DbState}
    (h : updateTodoH st fs idStr body? = .ok (r, st')) :
    st' = st ∨ ∃ body id, body? = some body ∧ sanitizeTitle body.title ≠ [] ∧
      st' = (updateTodo st id (sanitizeTitle body.title) body.description
        (storedStatus body.status)).1 := by
  unfold updateTodoH at h
  rcases body? with _ | body
  · simp only at h
    repeat' split at h
    all_goals simp only [Except.ok.injEq, Prod.mk.injEq] at h
    all_goals exact Or.inl h.2.symm
  · simp only at h
    repeat' split at h
    all_goals simp only [Except.ok.injEq, Prod.mk.injEq] at h
    all_goals first
      | exact Or.inl h.2.symm
      | exact Or.inr ⟨body, _, rfl, by assumption, h.2.symm⟩

lemma deleteTodoH_state {st : DbState} {fs : FailSpec} {idStr : Str}
    {r : Response} {st' : DbState}
    (h : deleteTodoH st fs idStr = .ok (r, st')) :
    st' = st ∨ ∃ id, st' = (deleteTodo st id).1 := by
  unfold deleteTodoH at h
  try simp only at h
  repeat' split at h
  all_goals simp only [Except.ok.injEq, Prod.mk.injEq] at h
  all_goals first
    | exact Or.inl h.2.symm
    | exact Or.inr ⟨_, h.2.symm⟩

lemma getAllTodosH_state {st : DbState} {fs : FailSpec} {r : Response}
    {st' : DbState} (h : getAllTodosH st fs = .ok (r, st')) : st' = st := by
  unfold getAllTodosH at h
  try simp only at h
  repeat' split at h
  all_goals simp only [Except.ok.injEq, Prod.mk.injEq] at h
  all_goals exact h.2.symm

lemma getTodoByIdH_state {st : DbState} {fs : FailSpec} {idStr : Str}
    {r : Response} {st' : DbState}
    (h : getTodoByIdH st fs idStr = .ok (r, st')) : st' = st := by
  unfold getTodoByIdH at h
  try simp only at h
  repeat' split at h
  all_goals simp only [Except.ok.injEq, Prod.mk.injEq] at h
  all_goals exact h.2.symm

lemma getAllTodosH_isOk (st : DbState) (fs : FailSpec) :
    ∃ p, getAllTodosH st fs = .ok p := by
  unfold getAllTodosH
  try simp only
  repeat' split
  all_goals exact ⟨_, rfl⟩

lemma getTodoByIdH_isOk (st : DbState) (fs : FailSpec) (idStr : Str) :
    ∃ p, getTodoByIdH st fs idStr = .ok p := by
  unfold getTodoByIdH
  try simp only
  repeat' split
  all_goals exact ⟨_, rfl⟩

lemma createTodoH_isOk (st : DbState) (fs : FailSpec) (body? : Option ReqBody) :
    ∃ p, createTodoH st fs body? = .ok p := by
  unfold createTodoH
  try simp only
  repeat' split
  all_goals exact ⟨_, rfl⟩

lemma updateTodoH_isOk (st : DbState) (fs : FailSpec) (idStr : Str)
    (body? : Option ReqBody) : ∃ p, updateTodoH st fs idStr body? = .ok p := by
  unfold updateTodoH
  try simp only
  repeat' split
  all_goals exact ⟨_, rfl⟩

lemma deleteTodoH_isOk (st : DbState) (fs : FailSpec) (idStr : Str) :
    ∃ p, deleteTodoH st fs idStr = .ok p := by
  unfold deleteTodoH
  try simp only
  repeat' split
  all_goals exact ⟨_, rfl⟩

lemma validateTodoId_of_invalid {idStr : Str}
    (h : parseIntJs idStr = none ∨ ∃ n, parseIntJs idStr = some n ∧ n ≤ 0) :
    validateTodoId idStr = ⟨false, none, some "Invalid ID".data⟩ := by
  rcases h with h | ⟨n, hn, hle⟩
  · unfold validateTodoId
    rw [h]
  · unfold validateTodoId
    rw [hn]
    simp [hle]

lemma storedStatus_of_invalid {s : Option Str} (h : isValidStatus s = false) :
    storedStatus s = defaultStatus := by
  unfold storedStatus
  rw [h]
  simp

lemma storedStatus_of_valid {v : Str} (h : isValidStatus (some v) = true) :
    storedStatus (some v) = v := by
  unfold storedStatus
  rw [h]
  simp

lemma isDescriptionTooLong_of_le {d : Str} (h : d.length ≤ 1000) :
    isDescriptionTooLong (some d) 1000 = false := by
  unfold isDescriptionTooLong
  by_cases hd : d = []
  · simp [hd]
  · simp [hd]
    omega

lemma isDescriptionTooLong_of_gt {d : Str} (h : d.length > 1000) :
    isDescriptionTooLong (some d) 1000 = true := by
  unfold isDescriptionTooLong
  have hd : d ≠ [] := by
    intro hnil
    rw [hnil] at h
    simp at h
  simp [hd]
  omega

lemma includesSub_nil {needle : Str} (h : needle ≠ []) :
    includesSub [] needle = false := by
  cases needle with
  | nil => exact absurd rfl h
  | cons b bs => rfl

lemma isValidDescription_blocklist {d : Str}
    (h : (includesSub d "<script>".data || includesSub d "javascript:".data ||
      includesSub d "onerror=".data || includesSub d "onload=".data) = true) :
    isValidDescription (some d) = false := by
  have hd : d ≠ [] := by
    intro hnil
    subst hnil
    rw [includesSub_nil (by decide), includesSub_nil (by decide),
      includesSub_nil (by decide), includesSub_nil (by decide)] at h
    simp at h
  simp only [Bool.or_eq_true] at h
  rcases h with ((h | h) | h) | h <;>
    simp [isValidDescription, hd, h, ite_self]

lemma deleteTodo_state_of_changes_zero {st : DbState} {id : Int}
    (h : (deleteTodo st id).2 = 0) : (deleteTodo st id).1 = st := by
  unfold deleteTodo at h ⊢
  simp only at h ⊢
  have hall : ∀ a ∈ st.rows, ¬((fun t => t.id == id) a = true) :=
    List.filter_eq_nil_iff.mp (List.length_eq_zero.mp h)
  cases st with
  | mk rows nextId =>
    simp only [DbState.mk.injEq, and_true]
    apply List.filter_eq_self.mpr
    intro a ha
    have := hall a ha
    simpa using this

lemma deleteTodo_changes_zero_of_not_found {st : DbState} {id : Int}
    (h : getTodoById st id = []) : (deleteTodo st id).2 = 0 := by
  unfold deleteTodo
  unfold getTodoById at h
  simp [h]

lemma todoExists_mem {st : DbState} {id : Int} (h : todoExists st id ≠ []) :
    ∃ u ∈ st.rows, u.id = id := by
  unfold todoExists at h
  rcases hf : st.rows.filter (fun t => t.id == id) with _ | ⟨u, us⟩
  · rw [hf] at h
    simp at h
  · have hu : u ∈ st.rows.filter (fun t => t.id == id) := by
      rw [hf]
      exact List.mem_cons_self u us
    rw [List.mem_filter] at hu
    exact ⟨u, hu.1, by simpa using hu.2⟩

lemma createTodoH_success_ex {st : DbState} {fs : FailSpec} {body : ReqBody}
    (h1 : titleFalsy body.title = false)
    (h2 : sanitizeTitle body.title ≠ [])
    (h3 : isDescriptionTooLong body.description 1000 = false)
    (h4 : isValidDescription body.description = true)
    (h5 : fs.insertFail = none) (h6 : fs.latestFail = none) :
    ∃ r, createTodoH st fs (some body) =
      .ok (r, insertTodo st (sanitizeTitle body.title) body.description
        (storedStatus body.status)) ∧ r.status = 201 ∧
      (∀ t, getLatestTodo (insertTodo st (sanitizeTitle body.title)
        body.description (storedStatus body.status)) = [t] →
        r = ⟨201, .todoB t⟩) := by
  unfold createTodoH
  simp only [h1, h2, h3, h4, h5, h6, Bool.false_eq_true, if_false, ne_eq,
    not_false_eq_true, Bool.not_eq_true']
  rcases hL : getLatestTodo (insertTodo st (sanitizeTitle body.title)
      body.description (storedStatus body.status)) with _ | ⟨t, ts⟩
  · refine ⟨⟨201, .undefB⟩, by simp [h2, hL], rfl, ?_⟩
    intro t' ht'
    simp at ht'
  · refine ⟨⟨201, .todoB t⟩, by simp [h2, hL], rfl, ?_⟩
    intro t' ht'
    simp only [List.cons.injEq] at ht'
    rw [ht'.1]

lemma updateTodoH_success_ex {st : DbState} {fs : FailSpec} {idStr : Str}
    {body : ReqBody} {n : Int}
    (hv : validateTodoId idStr = ⟨true, some n, none⟩)
    (h1 : titleFalsy body.title = false)
    (h2 : sanitizeTitle body.title ≠ [])
    (hex : fs.existsFail = none) (hexists : todoExists st n ≠ [])
    (h3 : isDescriptionTooLong body.description 1000 = false)
    (hup : fs.updateFail = none) (hgb : fs.getByIdFail = none) :
    ∃ r, updateTodoH st fs idStr (some body) =
      .ok (r, (updateTodo st n (sanitizeTitle body.title) body.description
        (storedStatus body.status)).1) ∧ r.status = 200 := by
  unfold updateTodoH
  simp only [hv, h1, h2, hex, hexists, h3, hup, hgb, Bool.false_eq_true,
    if_false, ne_eq, not_false_eq_true]
  rcases hG : getTodoById ((updateTodo st n (sanitizeTitle body.title)
      body.description (storedStatus body.status)).1) n with _ | ⟨u, us⟩
  · exact ⟨⟨200, .undefB⟩, by simp [h2, hexists, hG], rfl⟩
  · exact ⟨⟨200, .todoB u⟩, by simp [h2, hexists, hG], rfl⟩

/-! ## Claims -/

/-- Claim C1 (amended).  In the hardened handlers, every id-taking operation
(get by id, update, delete) answers a non-numeric, zero, or negative id with
status 400 and body `{error:"Invalid ID"}`, and `validateTodoId` accepts an
input exactly when it parses as an integer strictly greater than zero.  The
simple get-by-id handler, however, rejects only non-numeric ids: an id that
parses to zero or a negative integer passes its validation, so it never
answers 400 for such an id. -/
theorem invalid_id_rejection_C1 :
    (∀ idStr : Str,
      (parseIntJs idStr = none ∨ ∃ n, parseIntJs idStr = some n ∧ n ≤ 0) →
      ∀ (st : DbState) (fs : FailSpec) (body? : Option ReqBody),
        getTodoByIdH st fs idStr = .ok (⟨400, .errB "Invalid ID".data⟩, st) ∧
        updateTodoH st fs idStr body? = .ok (⟨400, .errB "Invalid ID".data⟩, st) ∧
        deleteTodoH st fs idStr = .ok (⟨400, .errB "Invalid ID".data⟩, st)) ∧
    (∀ idStr : Str, (validateTodoId idStr).isValid = true ↔
      ∃ n, parseIntJs idStr = some n ∧ 0 < n) ∧
    (∀ (idStr : Str) (n : Int), parseIntJs idStr = some n → n ≤ 0 →
      ∀ (st : DbState) (r : Response) (st' : DbState),
        getTodoByIdS st noFails idStr = .ok (r, st') → r.status ≠ 400) := by
  refine ⟨?_, ?_, ?_⟩
  · intro idStr h st fs body?
    have hv := validateTodoId_of_invalid h
    refine ⟨?_, ?_, ?_⟩
    · simp [getTodoByIdH, hv]
    · simp [updateTodoH, hv]
    · simp [deleteTodoH, hv]
  · intro idStr
    unfold validateTodoId
    rcases hp : parseIntJs idStr with _ | n
    · simp
    · by_cases hn : n ≤ 0
      · simp only [hn, if_true]
        simp only [show (false = true) = False by simp, false_iff]
        rintro ⟨m, hm, hm0⟩
        cases hm
        omega
      · simp only [hn, if_false]
        simp only [show (true = true) = True by simp, true_iff]
        exact ⟨n, rfl, by omega⟩
  · intro idStr n hp hle st r st' h
    unfold getTodoByIdS at h
    rw [hp] at h
    simp only [noFails] at h
    rcases hById : getTodoById st n with _ | ⟨t, ts⟩ <;> rw [hById] at h <;>
      simp only [Except.ok.injEq, Prod.mk.injEq] at h <;>
      rw [← h.1] <;> simp

/-- Witness for C1 at the concrete id `"0"` and the empty table. -/
theorem invalid_id_rejection_C1_witness :
    getTodoByIdH ⟨[], 1⟩ noFails "0".data =
      .ok (⟨400, .errB "Invalid ID".data⟩, ⟨[], 1⟩) :=
  (invalid_id_rejection_C1.1 "0".data (Or.inr ⟨0, by decide, by decide⟩)
    ⟨[], 1⟩ noFails none).1

/-- Counterexample to C1 as stated: the simple get-by-id handler (the first
`router.get("/todos/:id")` of src/index.js) checks only `isNaN(id)`, so the
zero id `"0"` passes validation and the response is 404, not 400. -/
theorem invalid_id_rejection_C1_cex :
    getTodoByIdS ⟨[], 1⟩ noFails "0".data =
      .ok (⟨404, .errB "Not found".data⟩, ⟨[], 1⟩) ∧ (404 : Nat) ≠ 400 :=
  ⟨rfl, by decide⟩

/-- Claim C2 (amended).  Every Todo stored by the hardened create or update
handler has a non-empty normalized title (a fixpoint of `sanitizeTitle`) and
a status from the fixed enumeration, and this invariant is preserved by every
hardened operation.  The simple create handler does not maintain it: it
stores the raw title verbatim (possibly unnormalized or all-whitespace) and
any provided status string verbatim. -/
theorem todo_invariant_C2 :
    ∀ st : DbState, DbWF st →
      (∀ (fs : FailSpec) (r : Response) (st' : DbState),
        getAllTodosH st fs = .ok (r, st') → DbWF st') ∧
      (∀ (fs : FailSpec) (idStr : Str) (r : Response) (st' : DbState),
        getTodoByIdH st fs idStr = .ok (r, st') → DbWF st') ∧
      (∀ (fs : FailSpec) (body? : Option ReqBody) (r : Response)
        (st' : DbState), createTodoH st fs body? = .ok (r, st') → DbWF st') ∧
      (∀ (fs : FailSpec) (idStr : Str) (body? : Option ReqBody) (r : Response)
        (st' : DbState),
        updateTodoH st fs idStr body? = .ok (r, st') → DbWF st') ∧
      (∀ (fs : FailSpec) (idStr : Str) (r : Response) (st' : DbState),
        deleteTodoH st fs idStr = .ok (r, st') → DbWF st') := by
  intro st hwf
  refine ⟨?_, ?_, ?_, ?_, ?_⟩
  · intro fs r st' h
    rw [getAllTodosH_state h]
    exact hwf
  · intro fs idStr r st' h
    rw [getTodoByIdH_state h]
    exact hwf
  · intro fs body? r st' h
    rcases createTodoH_state h with rfl | ⟨body, _, hsan, rfl⟩
    · exact hwf
    · exact DbWF_insert hwf hsan (sanitizeTitle_idem body.title)
        (isValidStatus_storedStatus body.status)
  · intro fs idStr body? r st' h
    rcases updateTodoH_state h with rfl | ⟨body, id, _, hsan, rfl⟩
    · exact hwf
    · exact DbWF_update hwf hsan (sanitizeTitle_idem body.title)
        (isValidStatus_storedStatus body.status)
  · intro fs idStr r st' h
    rcases deleteTodoH_state h with rfl | ⟨id, rfl⟩
    · exact hwf
    · exact DbWF_delete hwf

/-- Witness for C2: a concrete well-formed table stays well-formed through a
create whose raw title needs normalization. -/
theorem todo_invariant_C2_witness :
    DbWF (⟨[⟨1, "a".data, none, "incomplete".data⟩], 2⟩ : DbState) ∧
    DbWF (⟨[⟨1, "a".data, none, "incomplete".data⟩,
      ⟨2, "b c".data, none, "incomplete".data⟩], 3⟩ : DbState) :=
  ⟨by decide,
    (todo_invariant_C2 ⟨[⟨1, "a".data, none, "incomplete".data⟩], 2⟩
      (by decide)).2.2.1 noFails (some ⟨some " b  c ".data, none, none⟩)
      ⟨201, .todoB ⟨2, "b c".data, none, "incomplete".data⟩⟩ _ rfl⟩

/-- Counterexample to C2 as stated: the simple create handler stores the raw
title `" x  y "`, which is not normalized (its sanitized form is `"x y"`),
so the stored Todo violates the invariant. -/
theorem todo_invariant_C2_cex :
    createTodoS ⟨[], 1⟩ noFails (some ⟨some " x  y ".data, none, none⟩) =
      .ok (⟨201, .todoB ⟨1, " x  y ".data, none, "incomplete".data⟩⟩,
        ⟨[⟨1, " x  y ".data, none, "incomplete".data⟩], 2⟩) ∧
    ¬ TodoWF ⟨1, " x  y ".data, none, "incomplete".data⟩ :=
  ⟨rfl, by decide⟩

/-- Claim C3 (confirmed, hardened create).  For accepted inputs, creating and
then fetching by the returned id round-trips: the record's title is the
sanitized form of the request title, its description is the request
description (null when omitted), and its status is the request status when
enumerated, else `incomplete`. -/
theorem create_roundtrip_C3 :
    ∀ (st : DbState) (body : ReqBody),
      IdsBelowNext st →
      titleFalsy body.title = false →
      sanitizeTitle body.title ≠ [] →
      isDescriptionTooLong body.description 1000 = false →
      isValidDescription body.description = true →
      ∃ t : Todo,
        createTodoH st noFails (some body) =
          .ok (⟨201, .todoB t⟩, insertTodo st (sanitizeTitle body.title)
            body.description (storedStatus body.status)) ∧
        getTodoById (insertTodo st (sanitizeTitle body.title) body.description
          (storedStatus body.status)) t.id = [t] ∧
        t.title = sanitizeTitle body.title ∧
        t.description = body.description ∧
        (∀ v, body.status = some v → isValidStatus (some v) = true →
          t.status = v) ∧
        (isValidStatus body.status = false → t.status = defaultStatus) := by
  intro st body hwf h1 h2 h3 h4
  obtain ⟨r, hr, _, hshape⟩ :=
    @createTodoH_success_ex st noFails body h1 h2 h3 h4 rfl rfl
  have hL := getLatestTodo_insert hwf (sanitizeTitle body.title)
    body.description (storedStatus body.status)
  refine ⟨⟨st.nextId, sanitizeTitle body.title, body.description,
    storedStatus body.status⟩, ?_, ?_, rfl, rfl, ?_, ?_⟩
  · rw [hr, hshape _ hL]
  · exact getTodoById_insert hwf _ _ _
  · intro v hv hval
    show storedStatus body.status = v
    rw [hv]
    exact storedStatus_of_valid hval
  · intro hval
    exact storedStatus_of_invalid hval

/-- Witness for C3 at a concrete create over a one-row table. -/
theorem create_roundtrip_C3_witness :
    ∃ t : Todo,
      createTodoH ⟨[⟨1, "a".data, none, "incomplete".data⟩], 2⟩ noFails
        (some ⟨some "  Buy   milk  ".data, some "2%".data,
          some "complete".data⟩) =
        .ok (⟨201, .todoB t⟩,
          insertTodo ⟨[⟨1, "a".data, none, "incomplete".data⟩], 2⟩
            (sanitizeTitle (some "  Buy   milk  ".data)) (some "2%".data)
            (storedStatus (some "complete".data))) ∧
      getTodoById (insertTodo ⟨[⟨1, "a".data, none, "incomplete".data⟩], 2⟩
        (sanitizeTitle (some "  Buy   milk  ".data)) (some "2%".data)
        (storedStatus (some "complete".data))) t.id = [t] ∧
      t.title = sanitizeTitle (some "  Buy   milk  ".data) ∧
      t.description = some "2%".data ∧
      (∀ v, (some "complete".data : Option Str) = some v →
        isValidStatus (some v) = true → t.status = v) ∧
      (isValidStatus (some "complete".data) = false →
        t.status = defaultStatus) :=
  create_roundtrip_C3 ⟨[⟨1, "a".data, none, "incomplete".data⟩], 2⟩
    ⟨some "  Buy   milk  ".data, some "2%".data, some "complete".data⟩
    (by decide) (by decide) (by decide) (by decide) (by decide)

/-- Claim C4 (amended).  Every hardened operation catches any collaborator
failure (its result is always a sent response, never an escaped exception)
and a failing collaborator call yields a 500 response carrying the failure's
message when present and non-empty, else the generic string `"DB failure"`.
The simple get-by-id handler does not wrap its collaborator call, so its
failures propagate uncaught. -/
theorem db_failure_handling_C4 :
    (∀ (st : DbState) (fs : FailSpec) (idStr : Str) (body? : Option ReqBody),
      (∃ p, getAllTodosH st fs = .ok p) ∧
      (∃ p, getTodoByIdH st fs idStr = .ok p) ∧
      (∃ p, createTodoH st fs body? = .ok p) ∧
      (∃ p, updateTodoH st fs idStr body? = .ok p) ∧
      (∃ p, deleteTodoH st fs idStr = .ok p)) ∧
    (∀ (st : DbState) (fs : FailSpec) (e : JsErr),
      fs.getAllFail = some e →
      getAllTodosH st fs = .ok (⟨500, .errB (errMsg e)⟩, st)) ∧
    (∀ (st : DbState) (fs : FailSpec) (e : JsErr) (idStr : Str),
      fs.getByIdFail = some e → (validateTodoId idStr).isValid = true →
      getTodoByIdH st fs idStr = .ok (⟨500, .errB (errMsg e)⟩, st)) ∧
    (∀ (st : DbState) (fs : FailSpec) (e : JsErr) (body : ReqBody),
      fs.insertFail = some e →
      titleFalsy body.title = false → sanitizeTitle body.title ≠ [] →
      isDescriptionTooLong body.description 1000 = false →
      isValidDescription body.description = true →
      createTodoH st fs (some body) = .ok (⟨500, .errB (errMsg e)⟩, st)) ∧
    (∀ (st : DbState) (fs : FailSpec) (e : JsErr) (body : ReqBody),
      fs.insertFail = none → fs.latestFail = some e →
      titleFalsy body.title = false → sanitizeTitle body.title ≠ [] →
      isDescriptionTooLong body.description 1000 = false →
      isValidDescription body.description = true →
      createTodoH st fs (some body) = .ok (⟨500, .errB (errMsg e)⟩,
        insertTodo st (sanitizeTitle body.title) body.description
          (storedStatus body.status))) ∧
    (∀ (st : DbState) (fs : FailSpec) (e : JsErr) (idStr : Str)
      (body : ReqBody),
      fs.existsFail = some e → (validateTodoId idStr).isValid = true →
      titleFalsy body.title = false → sanitizeTitle body.title ≠ [] →
      updateTodoH st fs idStr (some body) =
        .ok (⟨500, .errB (errMsg e)⟩, st)) ∧
    (∀ (st : DbState) (fs : FailSpec) (e : JsErr) (idStr : Str)
      (body : ReqBody) (n : Int),
      validateTodoId idStr = ⟨true, some n, none⟩ →
      fs.existsFail = none → todoExists st n ≠ [] →
      titleFalsy body.title = false → sanitizeTitle body.title ≠ [] →
      isDescriptionTooLong body.description 1000 = false →
      fs.updateFail = some e →
      updateTodoH st fs idStr (some body) =
        .ok (⟨500, .errB (errMsg e)⟩, st)) ∧
    (∀ (st : DbState) (fs : FailSpec) (e : JsErr) (idStr : Str)
      (body : ReqBody) (n : Int),
      validateTodoId idStr = ⟨true, some n, none⟩ →
      fs.existsFail = none → todoExists st n ≠ [] →
      titleFalsy body.title = false → sanitizeTitle body.title ≠ [] →
      isDescriptionTooLong body.description 1000 = false →
      fs.updateFail = none → fs.getByIdFail = some e →
      updateTodoH st fs idStr (some body) = .ok (⟨500, .errB (errMsg e)⟩,
        (updateTodo st n (sanitizeTitle body.title) body.description
          (storedStatus body.status)).1)) ∧
    (∀ (st : DbState) (fs : FailSpec) (e : JsErr) (idStr : Str),
      fs.deleteFail = some e → (validateTodoId idStr).isValid = true →
      deleteTodoH st fs idStr = .ok (⟨500, .errB (errMsg e)⟩, st)) ∧
    (∀ m : Str, m ≠ [] → errMsg ⟨some m⟩ = m) ∧
    errMsg ⟨none⟩ = "DB failure".data ∧
    errMsg ⟨some []⟩ = "DB failure".data := by
  refine ⟨?_, ?_, ?_, ?_, ?_, ?_, ?_, ?_, ?_, ?_, rfl, rfl⟩
  · intro st fs idStr body?
    exact ⟨getAllTodosH_isOk st fs, getTodoByIdH_isOk st fs idStr,
      createTodoH_isOk st fs body?, updateTodoH_isOk st fs idStr body?,
      deleteTodoH_isOk st fs idStr⟩
  · intro st fs e he
    unfold getAllTodosH
    rw [he]
  · intro st fs e idStr he hv
    unfold getTodoByIdH
    simp only [hv, if_true, he]
  · intro st fs e body he h1 h2 h3 h4
    unfold createTodoH
    simp only [h1, Bool.false_eq_true, if_false, h2, h3, h4, he]
    try simp [h2]
  · intro st fs e body hins he h1 h2 h3 h4
    unfold createTodoH
    simp only [h1, Bool.false_eq_true, if_false, h2, h3, h4, hins, he]
    try simp [h2]
  · intro st fs e idStr body he hv h1 h2
    unfold updateTodoH
    simp only [hv, if_true, h1, Bool.false_eq_true, if_false, h2, he]
    try simp [h2]
  · intro st fs e idStr body n hv hex hexists h1 h2 h3 he
    unfold updateTodoH
    simp only [hv, if_true, h1, Bool.false_eq_true, if_false, h2, hex,
      hexists, h3, he]
    try simp [h2, hexists]
  · intro st fs e idStr body n hv hex hexists h1 h2 h3 hup he
    unfold updateTodoH
    simp only [hv, if_true, h1, Bool.false_eq_true, if_false, h2, hex,
      hexists, h3, hup, he]
    try simp [h2, hexists]
  · intro st fs e idStr he hv
    unfold deleteTodoH
    simp only [hv, if_true, he]
  · intro m hm
    unfold errMsg
    simp [hm]

/-- Witness for C4: a failing fetch inside the hardened get-by-id is turned
into a 500 response carrying the thrown message. -/
theorem db_failure_handling_C4_witness :
    getTodoByIdH ⟨[], 1⟩ ⟨none, some ⟨some "boom".data⟩, none, none, none,
      none, none, false⟩ "1".data =
      .ok (⟨500, .errB (errMsg ⟨some "boom".data⟩)⟩, ⟨[], 1⟩) :=
  db_failure_handling_C4.2.2.1 ⟨[], 1⟩ ⟨none, some ⟨some "boom".data⟩, none,
    none, none, none, none, false⟩ ⟨some "boom".data⟩ "1".data rfl (by decide)

/-- Counterexample to C4 as stated: the simple get-by-id handler has no
try/catch around `getTodoById`, so the collaborator failure escapes the
handler uncaught instead of becoming a 500 response. -/
theorem db_failure_handling_C4_cex :
    getTodoByIdS ⟨[], 1⟩ ⟨none, some ⟨some "boom".data⟩, none, none, none,
      none, none, false⟩ "1".data = .error ⟨some "boom".data⟩ :=
  rfl

/-- Claim C5 (amended).  Responses with status 400 or 404 always leave the
stored collection unchanged (for delete: when the collaborator result carries
its count metadata), and a create whose insert call itself fails responds 500
without having inserted a row.  However a 500 arising from the re-fetch
*after* a successful insert leaves the inserted row in place, so a create
that responds with an error may have inserted a row. -/
theorem atomicity_C5 :
    (∀ (st : DbState) (fs : FailSpec) (idStr : Str) (body? : Option ReqBody)
      (r : Response) (st' : DbState),
      (getAllTodosH st fs = .ok (r, st') → st' = st) ∧
      (getTodoByIdH st fs idStr = .ok (r, st') → st' = st) ∧
      (createTodoH st fs body? = .ok (r, st') →
        (r.status = 400 ∨ r.status = 404) → st' = st) ∧
      (updateTodoH st fs idStr body? = .ok (r, st') →
        (r.status = 400 ∨ r.status = 404) → st' = st) ∧
      (fs.dropDeleteMeta = false → deleteTodoH st fs idStr = .ok (r, st') →
        (r.status = 400 ∨ r.status = 404) → st' = st)) ∧
    (∀ (st : DbState) (fs : FailSpec) (body? : Option ReqBody) (r : Response)
      (st' : DbState) (e : JsErr), fs.insertFail = some e →
      createTodoH st fs body? = .ok (r, st') → st' = st) := by
  constructor
  · intro st fs idStr body? r st'
    refine ⟨fun h => getAllTodosH_state h, fun h => getTodoByIdH_state h,
      ?_, ?_, ?_⟩
    · intro h hstat
      unfold createTodoH at h
      rcases body? with _ | body
      · simp only [Except.ok.injEq, Prod.mk.injEq] at h
        exact h.2.symm
      · simp only at h
        repeat' split at h
        all_goals simp only [Except.ok.injEq, Prod.mk.injEq] at h
        all_goals first
          | exact h.2.symm
          | (rw [← h.1] at hstat; simp at hstat)
    · intro h hstat
      unfold updateTodoH at h
      rcases body? with _ | body
      all_goals simp only at h
      all_goals repeat' split at h
      all_goals simp only [Except.ok.injEq, Prod.mk.injEq] at h
      all_goals first
        | exact h.2.symm
        | (rw [← h.1] at hstat; simp at hstat)
    · intro hdm h hstat
      unfold deleteTodoH at h
      simp only [hdm, Bool.false_eq_true, if_false] at h
      repeat' split at h
      all_goals simp only [Except.ok.injEq, Prod.mk.injEq] at h
      all_goals first
        | exact h.2.symm
        | (rw [← h.1] at hstat; exact absurd hstat (by decide))
        | (rename_i hch; rw [h.2.symm];
            exact deleteTodo_state_of_changes_zero hch)
  · intro st fs body? r st' e he h
    unfold createTodoH at h
    rcases body? with _ | body
    · simp only [Except.ok.injEq, Prod.mk.injEq] at h
      exact h.2.symm
    · simp only [he] at h
      repeat' split at h
      all_goals simp only [Except.ok.injEq, Prod.mk.injEq] at h
      all_goals exact h.2.symm

/-- Witness for C5: a concrete create rejected with 400 (whitespace-only
title), whose hypotheses are discharged by evaluation, leaves the concrete
table unchanged. -/
theorem atomicity_C5_witness : (⟨[], 7⟩ : DbState) = ⟨[], 7⟩ :=
  (atomicity_C5.1 ⟨[], 7⟩ noFails [] (some ⟨some " ".data, none, none⟩)
    ⟨400, .errB "Title cannot be empty".data⟩ ⟨[], 7⟩).2.2.1 rfl
    (Or.inl rfl)

/-- Counterexample to C5 as stated: when the insert succeeds but the
follow-up `getLatestTodo` fetch fails, the hardened create responds 500 yet
the new row is already stored — an error response with a mutated table. -/
theorem atomicity_C5_cex :
    createTodoH ⟨[], 1⟩ ⟨none, none, none, some ⟨none⟩, none, none, none,
      false⟩ (some ⟨some "a".data, none, none⟩) =
      .ok (⟨500, .errB "DB failure".data⟩,
        ⟨[⟨1, "a".data, none, "incomplete".data⟩], 2⟩) ∧
    (⟨[⟨1, "a".data, none, "incomplete".data⟩], 2⟩ : DbState) ≠ ⟨[], 1⟩ :=
  ⟨rfl, by decide⟩

/-- Claim C6 (amended).  In the hardened create and update, a status field
that is absent or not one of the four enumerated values is replaced by the
default `incomplete` before storing, and a bad status never causes the
request to be rejected (the response is still 201/200).  The simple handlers
default only an absent status: any provided status string, valid or not, is
stored verbatim (they never reject either). -/
theorem status_default_C6 :
    ∀ (st : DbState) (body : ReqBody),
      isValidStatus body.status = false →
      titleFalsy body.title = false →
      sanitizeTitle body.title ≠ [] →
      isDescriptionTooLong body.description 1000 = false →
      isValidDescription body.description = true →
      (∃ r, createTodoH st noFails (some body) =
        .ok (r, insertTodo st (sanitizeTitle body.title) body.description
          defaultStatus) ∧ r.status = 201) ∧
      (∀ (idStr : Str) (n : Int),
        validateTodoId idStr = ⟨true, some n, none⟩ →
        todoExists st n ≠ [] →
        ∃ r, updateTodoH st noFails idStr (some body) =
          .ok (r, (updateTodo st n (sanitizeTitle body.title)
            body.description defaultStatus).1) ∧ r.status = 200) := by
  intro st body hbad h1 h2 h3 h4
  constructor
  · obtain ⟨r, hr, hstat, _⟩ :=
      @createTodoH_success_ex st noFails body h1 h2 h3 h4 rfl rfl
    rw [storedStatus_of_invalid hbad] at hr
    exact ⟨r, hr, hstat⟩
  · intro idStr n hv hex
    obtain ⟨r, hr, hstat⟩ :=
      @updateTodoH_success_ex st noFails idStr body n hv h1 h2 rfl hex h3
        rfl rfl
    rw [storedStatus_of_invalid hbad] at hr
    exact ⟨r, hr, hstat⟩

/-- Witness for C6: a create with the non-enumerated status `"banana"`
succeeds and stores `incomplete`. -/
theorem status_default_C6_witness :
    ∃ r, createTodoH ⟨[], 1⟩ noFails
      (some ⟨some "a".data, none, some "banana".data⟩) =
      .ok (r, insertTodo ⟨[], 1⟩
        (sanitizeTitle (some "a".data)) none defaultStatus) ∧
      r.status = 201 :=
  (status_default_C6 ⟨[], 1⟩ ⟨some "a".data, none, some "banana".data⟩
    (by decide) (by decide) (by decide) (by decide) (by decide)).1

/-- Counterexample to C6 as stated: the simple create handler stores the
non-enumerated status `"banana"` verbatim instead of the default
`incomplete`, and still answers 201. -/
theorem status_default_C6_cex :
    createTodoS ⟨[], 1⟩ noFails
      (some ⟨some "a".data, none, some "banana".data⟩) =
      .ok (⟨201, .todoB ⟨1, "a".data, none, "banana".data⟩⟩,
        ⟨[⟨1, "a".data, none, "banana".data⟩], 2⟩) ∧
    "banana".data ≠ defaultStatus ∧
    isValidStatus (some "banana".data) = false :=
  ⟨rfl, by decide, by decide⟩

/-- Claim C7 (amended).  For every non-empty string of whitespace characters,
`sanitizeTitle` returns the empty string and the hardened create/update
reject the title with 400 `"Title cannot be empty"` (distinct from the
`"Title required"` error for an absent title; the empty-string title is falsy
in JS and is itself rejected as `"Title required"`).  The simple create
handler instead accepts such a title and stores it raw with 201. -/
theorem whitespace_title_C7 :
    ∀ s : Str, s ≠ [] → (∀ c ∈ s, isWs c = true) →
      sanitizeTitle (some s) = [] ∧
      (∀ (st : DbState) (fs : FailSpec) (body : ReqBody),
        body.title = some s →
        createTodoH st fs (some body) =
          .ok (⟨400, .errB "Title cannot be empty".data⟩, st)) ∧
      (∀ (st : DbState) (fs : FailSpec) (idStr : Str) (body : ReqBody),
        body.title = some s → (validateTodoId idStr).isValid = true →
        updateTodoH st fs idStr (some body) =
          .ok (⟨400, .errB "Title cannot be empty".data⟩, st)) ∧
      (∀ (st : DbState) (D S : Option Str), ∃ r st',
        createTodoS st noFails (some ⟨some s, D, S⟩) = .ok (r, st') ∧
        r.status = 201) := by
  intro s hne hws
  have hsan : sanitizeTitle (some s) = [] := sanitizeTitle_allWs hws
  have hf : titleFalsy (some s) = false := by simp [titleFalsy, hne]
  refine ⟨hsan, ?_, ?_, ?_⟩
  · intro st fs body ht
    unfold createTodoH
    simp only [ht, hf, Bool.false_eq_true, if_false, hsan]
    try simp
  · intro st fs idStr body ht hv
    unfold updateTodoH
    simp only [hv, if_true, ht, hf, Bool.false_eq_true, if_false, hsan]
    try simp
  · intro st D S
    unfold createTodoS
    simp only [hf, Bool.false_eq_true, if_false, noFails]
    rcases hL : getLatestTodo (insertTodo st ((some s).getD []) D
        (S.getD defaultStatus)) with _ | ⟨t, ts⟩
    · exact ⟨⟨201, .undefB⟩,
        insertTodo st ((some s).getD []) D (S.getD defaultStatus),
        by simp [hf, hL], rfl⟩
    · exact ⟨⟨201, .todoB t⟩,
        insertTodo st ((some s).getD []) D (S.getD defaultStatus),
        by simp [hf, hL], rfl⟩

/-- Witness for C7 at the concrete all-whitespace title `"  "`. -/
theorem whitespace_title_C7_witness :
    sanitizeTitle (some "  ".data) = [] ∧
    (∀ (st : DbState) (fs : FailSpec) (body : ReqBody),
      body.title = some "  ".data →
      createTodoH st fs (some body) =
        .ok (⟨400, .errB "Title cannot be empty".data⟩, st)) ∧
    (∀ (st : DbState) (fs : FailSpec) (idStr : Str) (body : ReqBody),
      body.title = some "  ".data → (validateTodoId idStr).isValid = true →
      updateTodoH st fs idStr (some body) =
        .ok (⟨400, .errB "Title cannot be empty".data⟩, st)) ∧
    (∀ (st : DbState) (D S : Option Str), ∃ r st',
      createTodoS st noFails (some ⟨some "  ".data, D, S⟩) = .ok (r, st') ∧
      r.status = 201) :=
  whitespace_title_C7 "  ".data (by decide) (by decide)

/-- Counterexample to C7 as stated: the simple create handler answers 201 for
the whitespace-only title `"  "` and stores it raw, instead of rejecting
with 400 `"Title cannot be empty"`. -/
theorem whitespace_title_C7_cex :
    createTodoS ⟨[], 1⟩ noFails (some ⟨some "  ".data, none, none⟩) =
      .ok (⟨201, .todoB ⟨1, "  ".data, none, "incomplete".data⟩⟩,
        ⟨[⟨1, "  ".data, none, "incomplete".data⟩], 2⟩) ∧ (201 : Nat) ≠ 400 :=
  ⟨rfl, by decide⟩

lemma desc_within_bound {o : Option Str}
    (hlong : isDescriptionTooLong o 1000 = false)
    (hinv : isValidDescription o = false) :
    ∃ d, o = some d ∧ d.length ≤ 1000 := by
  cases o with
  | none => simp [isValidDescription] at hinv
  | some d =>
    refine ⟨d, rfl, ?_⟩
    unfold isDescriptionTooLong at hlong
    by_cases hdn : d = []
    · rw [hdn]
      simp
    · simp only [hdn, if_false] at hlong
      simp at hlong
      omega

/-- Claim C8 (confirmed, hardened handlers).  A description longer than 1000
characters is rejected by create and update with the length-specific 400
message regardless of its content, and the injection-blocklist error can only
arise for a description whose length is within the 1000-character bound (the
length check runs first), so an over-long description containing a
blocklisted substring receives the "too long" error, not the blocklist
error. -/
theorem long_description_C8 :
    (∀ (st : DbState) (fs : FailSpec) (body : ReqBody) (d : Str),
      titleFalsy body.title = false → sanitizeTitle body.title ≠ [] →
      body.description = some d → d.length > 1000 →
      createTodoH st fs (some body) =
        .ok (⟨400,
          .errB "Description is too long (max 1000 characters)".data⟩, st)) ∧
    (∀ (st : DbState) (fs : FailSpec) (idStr : Str) (body : ReqBody)
      (d : Str) (n : Int),
      validateTodoId idStr = ⟨true, some n, none⟩ →
      titleFalsy body.title = false → sanitizeTitle body.title ≠ [] →
      fs.existsFail = none → todoExists st n ≠ [] →
      body.description = some d → d.length > 1000 →
      updateTodoH st fs idStr (some body) =
        .ok (⟨400,
          .errB "Description is too long (max 1000 characters)".data⟩, st)) ∧
    (∀ (st : DbState) (fs : FailSpec) (body : ReqBody) (r : Response)
      (st' : DbState),
      createTodoH st fs (some body) = .ok (r, st') →
      r.status = 400 →
      r.body = .errB "Description contains invalid content".data →
      ∃ d, body.description = some d ∧ d.length ≤ 1000) := by
  refine ⟨?_, ?_, ?_⟩
  · intro st fs body d h1 h2 hd hlen
    have htoo : isDescriptionTooLong body.description 1000 = true := by
      rw [hd]
      exact isDescriptionTooLong_of_gt hlen
    unfold createTodoH
    simp only [h1, Bool.false_eq_true, if_false, h2, htoo, if_true]
    try simp [h2]
  · intro st fs idStr body d n hv h1 h2 hex hexists hd hlen
    have htoo : isDescriptionTooLong body.description 1000 = true := by
      rw [hd]
      exact isDescriptionTooLong_of_gt hlen
    unfold updateTodoH
    simp only [hv, if_true, h1, Bool.false_eq_true, if_false, h2, hex,
      hexists, htoo]
    try simp [h2, hexists]
  · intro st fs body r st' h hstat hbody
    unfold createTodoH at h
    simp only at h
    repeat' split at h
    all_goals simp only [Except.ok.injEq, Prod.mk.injEq] at h
    all_goals try (rw [← h.1] at hstat; revert hstat; simp; done)
    all_goals try (rw [← h.1] at hbody; exact absurd hbody (by decide))
    all_goals
      rename_i hnotlong hinvalid
      exact desc_within_bound (by simpa using hnotlong)
        (by simpa using hinvalid)

/-- Witness for C8: a 1008-character description that contains `"<script>"`
is rejected by the hardened create with the "too long" message, not the
blocklist message. -/
theorem long_description_C8_witness :
    createTodoH ⟨[], 1⟩ noFails
      (some ⟨some "t".data,
        some ("<script>".data ++ List.replicate 1000 'a'), none⟩) =
      .ok (⟨400,
        .errB "Description is too long (max 1000 characters)".data⟩,
        ⟨[], 1⟩) :=
  long_description_C8.1 ⟨[], 1⟩ noFails
    ⟨some "t".data, some ("<script>".data ++ List.replicate 1000 'a'), none⟩
    ("<script>".data ++ List.replicate 1000 'a')
    (by decide) (by decide) rfl
    (by rw [List.length_append, List.length_replicate]; decide)

/-- Claim C9 (confirmed, hardened delete).  With a valid id and a delete call
that does not throw: a result with no count metadata, or a zero affected-row
count, yields 404 `{error:"Not found"}`; a non-zero count yields 200
`{success:true}`.  Deleting a nonexistent id leaves the table unchanged and
returns 404, no matter how many times the delete is repeated. -/
theorem delete_semantics_C9 :
    ∀ (st : DbState) (fs : FailSpec) (idStr : Str) (n : Int),
      validateTodoId idStr = ⟨true, some n, none⟩ →
      fs.deleteFail = none →
      (fs.dropDeleteMeta = true →
        deleteTodoH st fs idStr =
          .ok (⟨404, .errB "Not found".data⟩, (deleteTodo st n).1)) ∧
      (fs.dropDeleteMeta = false → (deleteTodo st n).2 = 0 →
        deleteTodoH st fs idStr =
          .ok (⟨404, .errB "Not found".data⟩, (deleteTodo st n).1)) ∧
      (fs.dropDeleteMeta = false → (deleteTodo st n).2 ≠ 0 →
        deleteTodoH st fs idStr = .ok (⟨200, .successB⟩, (deleteTodo st n).1)) ∧
      (fs.dropDeleteMeta = false → getTodoById st n = [] →
        ∀ k, deleteIter fs idStr k st =
          .ok (⟨404, .errB "Not found".data⟩, st)) := by
  intro st fs idStr n hv hdf
  have hstep : ∀ (st0 : DbState), getTodoById st0 n = [] →
      deleteTodoH st0 fs idStr = .ok (⟨404, .errB "Not found".data⟩, st0) := by
    intro st0 h0
    have hch : (deleteTodo st0 n).2 = 0 := deleteTodo_changes_zero_of_not_found h0
    have hst : (deleteTodo st0 n).1 = st0 := deleteTodo_state_of_changes_zero hch
    unfold deleteTodoH
    simp only [hv, if_true, hdf]
    by_cases hdm : fs.dropDeleteMeta = true
    · simp [hdm, hst]
    · simp only [Bool.not_eq_true] at hdm
      simp [hdm, hch, hst]
  refine ⟨?_, ?_, ?_, ?_⟩
  · intro hdm
    unfold deleteTodoH
    simp [hv, hdf, hdm]
  · intro hdm hch
    unfold deleteTodoH
    simp [hv, hdf, hdm, hch]
  · intro hdm hch
    unfold deleteTodoH
    simp [hv, hdf, hdm, hch]
  · intro hdm h0 k
    induction k with
    | zero =>
      unfold deleteIter
      exact hstep st h0
    | succ k ih =>
      unfold deleteIter
      rw [hstep st h0]
      exact ih

/-- Witness for C9: repeatedly deleting the nonexistent id 3 from the empty
table answers 404 each time. -/
theorem delete_semantics_C9_witness :
    deleteIter noFails "3".data 2 ⟨[], 1⟩ =
      .ok (⟨404, .errB "Not found".data⟩, ⟨[], 1⟩) :=
  (delete_semantics_C9 ⟨[], 1⟩ noFails "3".data 3 (by decide) rfl).2.2.2
    rfl (by decide) 2

/-- Claim C10 (confirmed, hardened handlers).  The hardened update validates
the description only for length: a description within the 1000-character
bound that contains a blocklisted substring is stored by update, which
answers 200, while the hardened create rejects the identical body with 400
"Description contains invalid content". -/
theorem update_blocklist_C10 :
    ∀ (st : DbState) (fs : FailSpec) (idStr : Str) (body : ReqBody)
      (d : Str) (n : Int),
      validateTodoId idStr = ⟨true, some n, none⟩ →
      titleFalsy body.title = false →
      sanitizeTitle body.title ≠ [] →
      body.description = some d →
      d.length ≤ 1000 →
      (includesSub d "<script>".data || includesSub d "javascript:".data ||
        includesSub d "onerror=".data || includesSub d "onload=".data) = true →
      fs.existsFail = none → fs.updateFail = none → fs.getByIdFail = none →
      todoExists st n ≠ [] →
      (∃ r, updateTodoH st fs idStr (some body) =
        .ok (r, (updateTodo st n (sanitizeTitle body.title) (some d)
          (storedStatus body.status)).1) ∧ r.status = 200) ∧
      (∃ t, t ∈ (updateTodo st n (sanitizeTitle body.title) (some d)
          (storedStatus body.status)).1.rows ∧ t.id = n ∧
        t.description = some d) ∧
      (∀ (st2 : DbState) (fs2 : FailSpec),
        createTodoH st2 fs2 (some body) =
          .ok (⟨400, .errB "Description contains invalid content".data⟩,
            st2)) := by
  intro st fs idStr body d n hv h1 h2 hd hlen hbl hex hup hgb hexists
  have hlong : isDescriptionTooLong body.description 1000 = false := by
    rw [hd]
    exact isDescriptionTooLong_of_le hlen
  have hinv : isValidDescription body.description = false := by
    rw [hd]
    exact isValidDescription_blocklist hbl
  refine ⟨?_, ?_, ?_⟩
  · obtain ⟨r, hr, hstat⟩ :=
      updateTodoH_success_ex hv h1 h2 hex hexists hlong hup hgb
    rw [hd] at hr
    exact ⟨r, hr, hstat⟩
  · obtain ⟨u, hu, hid⟩ := todoExists_mem hexists
    refine ⟨⟨u.id, sanitizeTitle body.title, some d, storedStatus body.status⟩,
      ?_, hid, rfl⟩
    unfold updateTodo
    simp only [List.mem_map]
    exact ⟨u, hu, by simp [hid]⟩
  · intro st2 fs2
    unfold createTodoH
    simp only [h1, Bool.false_eq_true, if_false, h2, hlong, hinv]
    simp [h2]

/-- Witness for C10 at a concrete one-row table and the blocklisted
description `"x<script>y"`. -/
theorem update_blocklist_C10_witness :
    (∃ r, updateTodoH ⟨[⟨1, "a".data, none, "incomplete".data⟩], 2⟩ noFails
      "1".data (some ⟨some "t".data, some "x<script>y".data, none⟩) =
      .ok (r, (updateTodo ⟨[⟨1, "a".data, none, "incomplete".data⟩], 2⟩ 1
        (sanitizeTitle (some "t".data)) (some "x<script>y".data)
        (storedStatus none)).1) ∧ r.status = 200) ∧
    (∃ t, t ∈ (updateTodo ⟨[⟨1, "a".data, none, "incomplete".data⟩], 2⟩ 1
        (sanitizeTitle (some "t".data)) (some "x<script>y".data)
        (storedStatus none)).1.rows ∧ t.id = 1 ∧
      t.description = some "x<script>y".data) ∧
    (∀ (st2 : DbState) (fs2 : FailSpec),
      createTodoH st2 fs2
        (some ⟨some "t".data, some "x<script>y".data, none⟩) =
        .ok (⟨400, .errB "Description contains invalid content".data⟩,
          st2)) :=
  update_blocklist_C10 ⟨[⟨1, "a".data, none, "incomplete".data⟩], 2⟩ noFails
    "1".data ⟨some "t".data, some "x<script>y".data, none⟩
    "x<script>y".data 1 (by decide) (by decide) (by decide) rfl (by decide)
    (by decide) rfl rfl rfl (by decide)

end TodoApp
